import Mathlib

/-!
Shallow embedding of the miniredis repository (Go) for specification checking.

The embedding covers:
- `cmd_string.go`: the SET and GET handlers registered by `commandsString`;
- `server/server.go`: `errUnknownCommand`, `Server.dispatch`, `Server.ServeConn`
  counters, `Peer.Close` and the `servePeer` worker loop;
- `miniredis.go`: `watch`, `Miniredis.db` / `DB` / `swapDB`, the value
  truncation helper inside `Dump`, and `shuffle`.

Go maps are modelled as functions into `Option`; Go pointer mutation of the
database objects held in `Miniredis.dbs` is made explicit (aliasing is resolved
by case analysis).  Go strings are modelled by Lean `String` (Go `len`/slicing
is byte-based; for the properties checked here values are treated
character-wise, which agrees on ASCII).
-/

set_option autoImplicit false
set_option maxRecDepth 10000

/-- Go `strings.ToUpper`, restricted to ASCII (command names are ASCII):
uppercases every character. -/
def strToUpper (s : String) : String :=
  String.mk (s.data.map Char.toUpper)

/-- Updates a Go map modelled as a function: `mapSet f k v` is `f[k] = v`
(for `v = some x`) or `delete(f, k)` (for `v = none`). -/
def mapSet {α : Type} (f : String → Option α) (k : String) (v : Option α) :
    String → Option α :=
  fun x => if x = k then v else f x

/-- A RESP reply written by a handler through the responder
(`WriteOK` / `WriteErrorString` / `WriteNil` / `WriteString`). -/
inductive Reply where
  | ok
  | err (msg : String)
  | nil
  | bulk (s : String)
deriving DecidableEq, Repr

/-- Go errors a string-command handler can return (only `errUnimplemented`
is returned by the handlers in `cmd_string.go`). -/
inductive GoError where
  | unimplemented
deriving DecidableEq, Repr

/-- The state touched by the handlers in `cmd_string.go`: the string keyspace
`stringKeys` and the `expire` map. -/
structure StrState where
  stringKeys : String → Option String
  expire : String → Option Nat

/-- Outcome of running a handler body: either it wrote a reply and returned
`nil`, or it returned a Go error without writing. -/
inductive HResult where
  | replied (r : Reply) (s : StrState)
  | failed (e : GoError) (s : StrState)

/-- The `SET` handler of `commandsString` (`cmd_string.go`): fewer than two
args writes `Usage error`; more than two args (the EX/PX/NX/XX forms) returns
`errUnimplemented`; exactly two args stores the value and deletes the key
from `expire`, replying `OK`. -/
def setCmd (m : StrState) (args : List String) : HResult :=
  if args.length < 2 then
    .replied (.err "Usage error") m
  else if args.length > 2 then
    .failed .unimplemented m
  else
    let key := args.getD 0 ""
    let value := args.getD 1 ""
    .replied .ok
      { stringKeys := mapSet m.stringKeys key (some value)
        expire := mapSet m.expire key none }

/-- The `GET` handler of `commandsString` (`cmd_string.go`): it reads
`r.Args[0]` with no arity check (`none` models the out-of-range panic on an
empty argument vector), then replies the null bulk for a missing key and the
bulk value otherwise. -/
def getCmd (m : StrState) (args : List String) : Option HResult :=
  match args with
  | [] => none
  | key :: _ =>
    some (match m.stringKeys key with
      | none => .replied .nil m
      | some value => .replied (.bulk value) m)

/-- The empty string keyspace (a fresh server). -/
def emptyStr : StrState :=
  { stringKeys := fun _ => none, expire := fun _ => none }

/-! ## `server/server.go` -/

/-- Function `errUnknownCommand` (`server/server.go`): builds the unknown-command error
text, truncating the argument list to its first 20 entries and appending each
argument wrapped in backticks followed by a comma and space. -/
def errUnknownCommand (cmd : String) (args : List String) : String :=
  let s := "ERR unknown command `" ++ cmd ++ "`, with args beginning with: "
  let args2 := if args.length > 20 then args.take 20 else args
  args2.foldl (fun acc a => acc ++ ("`" ++ a ++ "`, ")) s

/-- What `Server.dispatch` does with a request: either it writes an error
reply (unknown command) or it invokes the registered handler with the
uppercased command name and the remaining arguments. -/
inductive DispatchResult where
  | errorReply (msg : String)
  | invoked (cmdUp : String) (args : List String)
deriving DecidableEq, Repr

/-- The `Server` state from `server/server.go` relevant to dispatch and the
counters: the command registry `cmds` (modelled as the set of registered
uppercased names), the command counter `infoCmds`, the connection counter
`infoConns`, and the number of live peers (`len(s.peers)`). -/
structure ServerSt where
  cmds : String → Bool
  infoCmds : Nat
  infoConns : Nat
  peers : Nat

/-- A freshly created server (`NewServer`): empty registry, zero counters. -/
def initSrv : ServerSt :=
  { cmds := fun _ => false, infoCmds := 0, infoConns := 0, peers := 0 }

/-- Method `Server.dispatch` (`server/server.go`): split the frame into command and
arguments, uppercase the command, look it up in the registry; when absent
write `errUnknownCommand` (and leave `infoCmds` alone), otherwise increment
`infoCmds` and invoke the handler. -/
def dispatch (s : ServerSt) (cmd : String) (args : List String) :
    DispatchResult × ServerSt :=
  let cmdUp := strToUpper cmd
  if s.cmds cmdUp then
    (.invoked cmdUp args, { s with infoCmds := s.infoCmds + 1 })
  else
    (.errorReply (errUnknownCommand cmd args), s)

/-- The server operations of `server/server.go` that touch `ServerSt`:
`ServeConn` (registers the peer and increments `infoConns`), the deferred
peer removal when a worker exits, a dispatched request, and `Register`. -/
inductive SrvOp where
  | serveConn
  | peerExit
  | dispatchReq (cmd : String) (args : List String)
  | register (cmd : String)

/-- One server operation, as implemented in `server/server.go`. -/
def SrvOp.step (s : ServerSt) : SrvOp → ServerSt
  | .serveConn => { s with infoConns := s.infoConns + 1, peers := s.peers + 1 }
  | .peerExit => { s with peers := s.peers - 1 }
  | .dispatchReq cmd args => (dispatch s cmd args).2
  | .register cmd =>
      if s.cmds (strToUpper cmd) then s
      else { s with cmds := fun c => if c = strToUpper cmd then true else s.cmds c }

/-- Runs a sequence of server operations. -/
def runOps (s : ServerSt) (ops : List SrvOp) : ServerSt :=
  ops.foldl SrvOp.step s

/-- Method `Server.TotalConnections` (`server/server.go`): returns `infoConns`. -/
def TotalConnections (s : ServerSt) : Nat := s.infoConns

/-- The number of `ServeConn` invocations in an operation sequence. -/
def countServeConn (ops : List SrvOp) : Nat :=
  ops.countP fun o => match o with | .serveConn => true | _ => false

/-- The per-peer state from `server/server.go` used by the worker loop: the
buffered writer's pending bytes `wbuf` and the pending-close flag `closed`. -/
structure Peer where
  wbuf : List String
  closed : Bool

/-- Method `Peer.Close` (`server/server.go`): only sets the pending-close flag; it
does not touch the socket (the function has no access to the connection). -/
def Peer.close (p : Peer) : Peer := { p with closed := true }

/-- The underlying socket as the client observes it: the bytes flushed to it
so far and whether it is still open. -/
structure Conn where
  sent : List String
  isOpen : Bool

/-- A request frame: an array of bulk strings. -/
def Frame := List String

/-- Method `Server.servePeer` (`server/server.go`): read one frame (a read on a
closed socket fails and exits the loop, as does end of input), dispatch it
through the handler `d`, flush the write buffer to the socket, then check the
peer's pending-close flag and close the socket if it is set; repeat. -/
def servePeerLoop (d : Peer → List String → Peer) :
    List Frame → Peer → Conn → Conn
  | [], _, c => c
  | f :: rest, p, c =>
    if c.isOpen = false then c
    else
      let p1 := d p f
      let c1 : Conn := { c with sent := c.sent ++ p1.wbuf }
      let p2 : Peer := { p1 with wbuf := [] }
      if p2.closed then
        servePeerLoop d rest p2 { c1 with isOpen := false }
      else
        servePeerLoop d rest p2 c1

/-- Modelled from the spec: the QUIT handler (registered by
`commandsConnection`, which is not under `src/`) writes the simple string
`+OK` and calls `Peer.Close`, relying on the deferred-close contract to let
the reply be flushed. -/
def quitHandler (p : Peer) : Peer :=
  Peer.close { p with wbuf := p.wbuf ++ ["+OK\r\n"] }

/-- A dispatch table containing only the spec-modelled QUIT handler: any
other command writes nothing and leaves the peer unchanged. -/
def quitDispatch (p : Peer) (f : List String) : Peer :=
  match f with
  | cmd :: _ => if strToUpper cmd = "QUIT" then quitHandler p else p
  | [] => p

/-! ## `miniredis.go` -/

/-- Type `dbKey` (`miniredis.go`): a database id + key combination. -/
structure DbKey where
  db : Int
  key : String
deriving DecidableEq, Repr

/-- Type `RedisDB` (`miniredis.go`): one numbered database.  The Go maps are
functions into `Option`; the `master` back-pointer is dropped (it only names
the shared mutex); `sortedSet` is not defined under `src/`, so the sorted-set
value type is abstracted to `Unit`. -/
structure RedisDB where
  id : Int
  keys : String → Option String
  stringKeys : String → Option String
  hashKeys : String → Option (String → Option String)
  listKeys : String → Option (List String)
  setKeys : String → Option (String → Bool)
  sortedsetKeys : String → Option Unit
  ttl : String → Option Int
  keyVersion : String → Option Nat

/-- Function `newRedisDB` (`miniredis.go`): a fresh database with the given id and
empty maps. -/
def newRedisDB (id : Int) : RedisDB :=
  { id := id
    keys := fun _ => none
    stringKeys := fun _ => none
    hashKeys := fun _ => none
    listKeys := fun _ => none
    setKeys := fun _ => none
    sortedsetKeys := fun _ => none
    ttl := fun _ => none
    keyVersion := fun _ => none }

/-- Type `connCtx` (`miniredis.go`): per-connection state.  The `transaction`
callback list and the `subscriber` handle hold function values and channels
not needed by the checked claims; they are represented by their
presence/shape only. -/
structure ConnCtx where
  selectedDB : Int
  authenticated : Bool
  inTransaction : Bool
  dirtyTransaction : Bool
  watch : Option (DbKey → Option Nat)

/-- Function `watch` (`miniredis.go`): initialise `ctx.watch` when it is `nil`, then
record `db.keyVersion[key]` (the Go map read yields `0` for a missing key)
under `dbKey{db: db.id, key: key}`. -/
def watch (db : RedisDB) (ctx : ConnCtx) (key : String) : ConnCtx :=
  let w := match ctx.watch with
    | none => fun _ => none
    | some w => w
  { ctx with watch := some (fun dk =>
      if dk = DbKey.mk db.id key then some ((db.keyVersion key).getD 0)
      else w dk) }

/-- Function `unwatch` (`miniredis.go`): resets the watch map to `nil`. -/
def unwatch (ctx : ConnCtx) : ConnCtx :=
  { ctx with watch := none }

/-- Type `Miniredis` (`miniredis.go`), restricted to the fields the checked claims
touch: the database family `dbs`, the selected database, and the password. -/
structure Miniredis where
  dbs : Int → Option RedisDB
  selectedDB : Int
  password : String

/-- Function `NewMiniRedis` (`miniredis.go`): no databases yet. -/
def newMiniRedis : Miniredis :=
  { dbs := fun _ => none, selectedDB := 0, password := "" }

/-- Method `Miniredis.db` (`miniredis.go`): return the database for id `i`, creating
and storing a fresh one on first reference.  The returned pair is the updated
server state together with the (pointer to the) database. -/
def Miniredis.db (m : Miniredis) (i : Int) : Miniredis × RedisDB :=
  match m.dbs i with
  | some d => (m, d)
  | none =>
    let d := newRedisDB i
    ({ m with dbs := fun k => if k = i then some d else m.dbs k }, d)

/-- Method `Miniredis.DB` (`miniredis.go`): `db(i)` under the lock; the lock is
immaterial in the sequential model. -/
def Miniredis.DB (m : Miniredis) (i : Int) : Miniredis × RedisDB :=
  m.db i

/-- Method `Miniredis.swapDB` (`miniredis.go`): fetch (creating if needed) the
databases for `i` and `j`, swap their `id` fields, and swap the map entries.
In Go `db1` and `db2` are pointers; when `i = j` they alias one object, whose
`id` ends up as `i` (the second field write wins), so the aliased case is
spelled out. -/
def Miniredis.swapDB (m : Miniredis) (i j : Int) : Miniredis × Bool :=
  let r1 := m.db i
  let r2 := r1.1.db j
  let m2 := r2.1
  if i = j then
    let d := { r2.2 with id := i }
    ({ m2 with dbs := fun k => if k = i then some d else m2.dbs k }, true)
  else
    let d1 := { r1.2 with id := j }
    let d2 := { r2.2 with id := i }
    ({ m2 with dbs := fun k =>
        if k = i then some d2 else if k = j then some d1 else m2.dbs k }, true)

/-- Go `%q` escaping of a single character, as `strconv.Quote` renders the
characters that occur in the checked properties (quote, backslash and the
common control characters; other printable characters are emitted as
themselves). -/
def quoteChar (c : Char) : String :=
  if c = '"' then "\\\""
  else if c = '\\' then "\\\\"
  else if c = '\n' then "\\n"
  else if c = '\t' then "\\t"
  else if c = '\r' then "\\r"
  else String.singleton c

/-- Go `fmt.Sprintf("%q", s)`: the escaped string wrapped in double
quotes. -/
def goQuote (s : String) : String :=
  "\"" ++ String.join (s.data.map quoteChar) ++ "\""

/-- The value formatter `v` inside `Miniredis.Dump` (`miniredis.go`): when
`len(s) > 60` it appends the suffix `...(len)` and truncates `s` to
`60 - len(suffix)` characters; the (possibly truncated) value is rendered
with `%q` and the suffix appended outside the quotes. -/
def dumpValue (s : String) : String :=
  let maxLen : Nat := 60
  if s.length > maxLen then
    let suffix := "...(" ++ toString s.length ++ ")"
    goQuote (s.take (maxLen - suffix.length)) ++ suffix
  else
    goQuote s

/-- The simultaneous swap `l[i], l[j] = l[j], l[i]` on a Go slice; out of
range reads cannot happen in `shuffle` (both indices come from
`randIntn(len(l))`), and leave the slice unchanged in the model. -/
def swapL (l : List String) (i j : Nat) : List String :=
  match l[i]?, l[j]? with
  | some x, some y => (l.set i y).set j x
  | _, _ => l

/-- The body of `Miniredis.shuffle` (`miniredis.go`): `n` remaining loop
iterations; each iteration draws `i` and `j` with `randIntn(len(l))` and
swaps `l[i]` with `l[j]`.  The random source is modelled by `g`, where
`g k n` is the value of the `k`-th `randIntn(n)` call. -/
def shuffleIter (g : Nat → Nat → Nat) : Nat → Nat → List String → List String
  | 0, _, l => l
  | n + 1, k, l =>
    let i := g k l.length
    let j := g (k + 1) l.length
    shuffleIter g n (k + 2) (swapL l i j)

/-- Method `Miniredis.shuffle` (`miniredis.go`): `for range l` runs `len(l)`
iterations of the pairwise swap. -/
def shuffle (g : Nat → Nat → Nat) (l : List String) : List String :=
  shuffleIter g l.length 0 l

/-! ## Derived definitions used by the statements -/

/-- A fresh connection context: the zero value of `connCtx` that `getCtx`
allocates on first access (all fields at their Go zero values, `watch` nil). -/
def ctx0 : ConnCtx :=
  { selectedDB := 0, authenticated := false, inTransaction := false
    dirtyTransaction := false, watch := none }

/-- The database-id invariant: every database stored in `dbs` under id `i`
has its `id` field equal to `i`. -/
def WellFormed (m : Miniredis) : Prop :=
  ∀ i d, m.dbs i = some d → d.id = i

/-! ## Helper lemmas -/

/-- Unfolds `String.join` on a cons. -/
theorem strJoin_cons (x : String) (xs : List String) :
    String.join (x :: xs) = x ++ String.join xs := by
  apply String.ext
  simp [String.join_eq]

/-- A left fold that appends `f a` for each element equals the seed followed
by the join of the mapped list. -/
theorem foldl_append_eq_join (l : List String) (s : String) (f : String → String) :
    l.foldl (fun acc a => acc ++ f a) s = s ++ String.join (l.map f) := by
  induction l generalizing s with
  | nil => simp [String.join]
  | cons x xs ih => simp [strJoin_cons, ih, String.append_assoc]

/-- Character length of `String.take`. -/
theorem strLength_take (s : String) (n : Nat) :
    (s.take n).length = min n s.length := by
  rw [String.take_eq]
  show (s.data.take n).length = min n s.data.length
  exact List.length_take n s.data

/-- A single server operation adds to `infoConns` exactly the number of
`ServeConn` invocations it contains. -/
theorem step_infoConns (s : ServerSt) (o : SrvOp) :
    (SrvOp.step s o).infoConns = s.infoConns + countServeConn [o] := by
  cases o with
  | serveConn => simp [SrvOp.step, countServeConn]
  | peerExit => simp [SrvOp.step, countServeConn]
  | dispatchReq cmd args =>
    simp only [SrvOp.step, countServeConn, dispatch, List.countP_cons,
      List.countP_nil]
    split <;> simp
  | register cmd =>
    simp only [SrvOp.step, countServeConn, List.countP_cons, List.countP_nil]
    split <;> simp

/-- Running a sequence of server operations adds to `infoConns` exactly the
number of `ServeConn` invocations in the sequence. -/
theorem runOps_infoConns (ops : List SrvOp) (s : ServerSt) :
    (runOps s ops).infoConns = s.infoConns + countServeConn ops := by
  induction ops generalizing s with
  | nil => simp [runOps, countServeConn]
  | cons o rest ih =>
    have h1 : runOps s (o :: rest) = runOps (SrvOp.step s o) rest := rfl
    have h2 : countServeConn (o :: rest)
        = countServeConn rest + countServeConn [o] := by
      simp [countServeConn, List.countP_cons]
    rw [h1, ih, step_infoConns, h2]
    omega

/-- Once the socket is closed, the worker loop's next read fails and the
loop exits without writing anything further. -/
theorem servePeerLoop_closed (d : Peer → List String → Peer)
    (frames : List Frame) (p : Peer) (c : Conn) (h : c.isOpen = false) :
    servePeerLoop d frames p c = c := by
  cases frames with
  | nil => rfl
  | cons f rest =>
    unfold servePeerLoop
    rw [if_pos h]

/-- Moving the element stored at index `m` to the front while writing `x` at
index `m` permutes a cons of the original list. -/
theorem cons_set_perm (t : List String) (m : Nat) (x b : String)
    (h : t[m]? = some b) : List.Perm (b :: t.set m x) (x :: t) := by
  induction t generalizing m with
  | nil => simp at h
  | cons y t ih =>
    cases m with
    | zero =>
      simp at h
      subst h
      exact List.Perm.swap x y t
    | succ m =>
      simp at h
      have ih2 := ih m h
      exact (List.Perm.swap y b (t.set m x)).trans
        ((ih2.cons y).trans (List.Perm.swap x y t))

/-- Writing `l[j]` at index `i` and `l[i]` at index `j` permutes `l`. -/
theorem swap_set_perm (l : List String) (i j : Nat) (x y : String)
    (hx : l[i]? = some x) (hy : l[j]? = some y) :
    List.Perm ((l.set i y).set j x) l := by
  induction l generalizing i j with
  | nil => simp at hx
  | cons a t ih =>
    cases i with
    | zero =>
      simp at hx
      subst hx
      cases j with
      | zero =>
        simp at hy
        subst hy
        simp
      | succ m =>
        simp at hy
        simpa using cons_set_perm t m a y hy
    | succ n =>
      simp at hx
      cases j with
      | zero =>
        simp at hy
        subst hy
        simpa using cons_set_perm t n a x hx
      | succ m =>
        simp at hy
        simpa using (ih n m hx hy).cons a

/-- The simultaneous pairwise swap permutes the list, for any indices. -/
theorem swapL_perm (l : List String) (i j : Nat) : List.Perm (swapL l i j) l := by
  unfold swapL
  cases hx : l[i]? with
  | none => exact List.Perm.refl l
  | some x =>
    cases hy : l[j]? with
    | none => exact List.Perm.refl l
    | some y => exact swap_set_perm l i j x y hx hy

/-- Every run of the shuffle loop body permutes the list, whatever the
random draws are. -/
theorem shuffleIter_perm (g : Nat → Nat → Nat) (n k : Nat) (l : List String) :
    List.Perm (shuffleIter g n k l) l := by
  induction n generalizing k l with
  | zero => exact List.Perm.refl l
  | succ n ih =>
    exact (ih (k + 2) (swapL l (g k l.length) (g (k + 1) l.length))).trans
      (swapL_perm l (g k l.length) (g (k + 1) l.length))

/-- Lazy creation `db(i)` preserves the id invariant and returns a database
whose id is `i`. -/
theorem wellFormed_db (m : Miniredis) (i : Int) (h : WellFormed m) :
    WellFormed (m.db i).1 ∧ (m.db i).2.id = i := by
  unfold Miniredis.db
  cases hm : m.dbs i with
  | some d => exact ⟨by simpa using h, h i d hm⟩
  | none =>
    refine ⟨fun a e he => ?_, rfl⟩
    simp at he
    by_cases hai : a = i
    · subst hai
      rw [if_pos rfl] at he
      cases he
      rfl
    · rw [if_neg hai] at he
      exact h a e he

/-- A second `db(i)` call returns the same state and the database created
(or found) by the first call. -/
theorem db_idem (m : Miniredis) (i : Int) : (m.db i).1.db i = m.db i := by
  unfold Miniredis.db
  cases hm : m.dbs i with
  | some d => simp [hm]
  | none => simp

/-- Method `swapDB` preserves the id invariant, including the aliased
`i = j` case. -/
theorem wellFormed_swapDB (m : Miniredis) (i j : Int) (h : WellFormed m) :
    WellFormed (m.swapDB i j).1 := by
  have h1 := wellFormed_db m i h
  have h2 := wellFormed_db (m.db i).1 j h1.1
  intro a d hd
  simp only [Miniredis.swapDB] at hd
  by_cases hij : i = j
  · rw [if_pos hij] at hd
    simp only at hd
    by_cases hai : a = i
    · subst hai
      rw [if_pos rfl] at hd
      cases hd
      rfl
    · rw [if_neg hai] at hd
      exact h2.1 a d hd
  · rw [if_neg hij] at hd
    simp only at hd
    by_cases hai : a = i
    · subst hai
      rw [if_pos rfl] at hd
      cases hd
      rfl
    · rw [if_neg hai] at hd
      by_cases haj : a = j
      · subst haj
        rw [if_pos rfl] at hd
        cases hd
        rfl
      · rw [if_neg haj] at hd
        exact h2.1 a d hd

/-! ## Claims -/

/-- Claim C1: for every key `k` and value `v`, executing the SET handler with
exactly the two arguments `k` and `v` and then the GET handler with argument
`k` returns the bulk string `v`; and for every key absent from the string
keyspace the GET handler returns the null bulk reply. -/
theorem C1_set_then_get (m : StrState) (k v : String) :
    (∀ s, setCmd m [k, v] = HResult.replied Reply.ok s →
      getCmd s [k] = some (HResult.replied (Reply.bulk v) s)) ∧
    (m.stringKeys k = none →
      getCmd m [k] = some (HResult.replied Reply.nil m)) := by
  constructor
  · intro s h
    simp [setCmd] at h
    subst h
    simp [getCmd, mapSet]
  · intro h
    simp [getCmd, h]

/-- Claim C1, witness: `SET foo bar` then `GET foo` yields the bulk `bar`,
and `GET mis` on the empty keyspace yields the null bulk. -/
theorem C1_witness :
    getCmd { stringKeys := mapSet emptyStr.stringKeys "foo" (some "bar")
             expire := mapSet emptyStr.expire "foo" none } ["foo"]
      = some (HResult.replied (Reply.bulk "bar")
          { stringKeys := mapSet emptyStr.stringKeys "foo" (some "bar")
            expire := mapSet emptyStr.expire "foo" none }) ∧
    getCmd emptyStr ["mis"] = some (HResult.replied Reply.nil emptyStr) :=
  ⟨(C1_set_then_get emptyStr "foo" "bar").1 _ rfl,
   (C1_set_then_get emptyStr "mis" "x").2 rfl⟩

/-- Claim C2: the SET handler with more than two arguments (the EX/PX/NX/XX
option forms) returns the unimplemented error with both the string keyspace
and the expiry map unchanged; with fewer than two arguments it only writes a
usage error, again without mutation; only the exact two-argument form stores
the value and clears the key's expiry entry. -/
theorem C2_set_rejects_options (m : StrState) (args : List String)
    (k v : String) :
    (args.length > 2 → setCmd m args = HResult.failed GoError.unimplemented m) ∧
    (args.length < 2 →
      setCmd m args = HResult.replied (Reply.err "Usage error") m) ∧
    setCmd m [k, v] = HResult.replied Reply.ok
      { stringKeys := mapSet m.stringKeys k (some v)
        expire := mapSet m.expire k none } := by
  refine ⟨fun h => ?_, fun h => ?_, rfl⟩
  · unfold setCmd
    rw [if_neg (by omega), if_pos (by omega)]
  · unfold setCmd
    rw [if_pos h]

/-- Claim C2, witness: `SET k v EX` is rejected as unimplemented leaving the
empty keyspace unchanged, `SET k` is a usage error, and `SET k v` stores. -/
theorem C2_witness :
    setCmd emptyStr ["k", "v", "EX"] = HResult.failed GoError.unimplemented emptyStr ∧
    setCmd emptyStr ["k"] = HResult.replied (Reply.err "Usage error") emptyStr ∧
    setCmd emptyStr ["k", "v"] = HResult.replied Reply.ok
      { stringKeys := mapSet emptyStr.stringKeys "k" (some "v")
        expire := mapSet emptyStr.expire "k" none } :=
  ⟨(C2_set_rejects_options emptyStr ["k", "v", "EX"] "k" "v").1 (by decide),
   (C2_set_rejects_options emptyStr ["k"] "k" "v").2.1 (by decide),
   (C2_set_rejects_options emptyStr ["k"] "k" "v").2.2⟩

/-- Claim C3: `watch` records under the pair `(db.id, k)` exactly the current
value of `db.keyVersion[k]`, recording 0 when `k` has no version entry, and
leaves every other `(db, key)` entry of the watch map unchanged. -/
theorem C3_watch_records (db : RedisDB) (ctx : ConnCtx) (k : String) :
    ((watch db ctx k).watch.getD (fun _ => none)) (DbKey.mk db.id k)
        = some ((db.keyVersion k).getD 0) ∧
    (db.keyVersion k = none →
      ((watch db ctx k).watch.getD (fun _ => none)) (DbKey.mk db.id k)
        = some 0) ∧
    (∀ dk, dk ≠ DbKey.mk db.id k →
      ((watch db ctx k).watch.getD (fun _ => none)) dk
        = (ctx.watch.getD (fun _ => none)) dk) := by
  refine ⟨?_, fun h => ?_, fun dk hdk => ?_⟩
  · simp [watch]
  · simp [watch, h]
  · simp [watch, hdk]
    cases ctx.watch <;> simp

/-- Claim C3, witness: watching key `k` of a fresh database 0 from a fresh
context records version 0 under `(0, k)` and leaves `(1, q)` unchanged. -/
theorem C3_witness :
    ((watch (newRedisDB 0) ctx0 "k").watch.getD (fun _ => none))
        (DbKey.mk (newRedisDB 0).id "k") = some 0 ∧
    ((watch (newRedisDB 0) ctx0 "k").watch.getD (fun _ => none)) (DbKey.mk 1 "q")
      = (ctx0.watch.getD (fun _ => none)) (DbKey.mk 1 "q") :=
  ⟨(C3_watch_records (newRedisDB 0) ctx0 "k").2.1 rfl,
   (C3_watch_records (newRedisDB 0) ctx0 "k").2.2 (DbKey.mk 1 "q") (by decide)⟩

/-- Claim C4: `Peer.Close` only sets the pending-close flag (it does not touch
the socket), and the worker loop closes the socket only after the QUIT reply
has been dispatched and flushed, so a client sending QUIT observes the
complete `+OK` reply followed by clean EOF (no further output). -/
theorem C4_deferred_close (p : Peer) (c : Conn) (rest : List Frame)
    (hw : p.wbuf = []) (hop : c.isOpen = true) :
    Peer.close p = { wbuf := p.wbuf, closed := true } ∧
    servePeerLoop quitDispatch (["QUIT"] :: rest) p c
      = { sent := c.sent ++ ["+OK\r\n"], isOpen := false } := by
  refine ⟨rfl, ?_⟩
  have hq : quitDispatch p ["QUIT"] = quitHandler p := by
    show (if strToUpper "QUIT" = "QUIT" then quitHandler p else p) = quitHandler p
    rw [if_pos (by decide)]
  unfold servePeerLoop
  rw [if_neg (by rw [hop]; simp)]
  simp [hq, quitHandler, Peer.close, hw, servePeerLoop_closed]

/-- Claim C4, witness: a live peer with an empty write buffer that receives
`QUIT` gets exactly `+OK` flushed and then the socket closed. -/
theorem C4_witness :
    Peer.close { wbuf := [], closed := false }
      = { wbuf := ({ wbuf := [], closed := false } : Peer).wbuf, closed := true } ∧
    servePeerLoop quitDispatch [["QUIT"]] { wbuf := [], closed := false }
        { sent := [], isOpen := true }
      = { sent := ([] : List String) ++ ["+OK\r\n"], isOpen := false } :=
  C4_deferred_close { wbuf := [], closed := false } { sent := [], isOpen := true }
    [] rfl rfl

/-- Claim C5: dispatching a request whose uppercased command name is not
registered writes the `ERR unknown command` error naming the command and the
arguments each wrapped in backticks, truncated to the first 20 arguments, and
does not increment the commands counter. -/
theorem C5_unknown_command (s : ServerSt) (cmd : String) (args : List String)
    (h : s.cmds (strToUpper cmd) = false) :
    dispatch s cmd args
      = (DispatchResult.errorReply (errUnknownCommand cmd args), s) ∧
    (dispatch s cmd args).2.infoCmds = s.infoCmds ∧
    errUnknownCommand cmd args
      = "ERR unknown command `" ++ cmd ++ "`, with args beginning with: "
          ++ String.join ((args.take 20).map fun a => "`" ++ a ++ "`, ") := by
  have hd : dispatch s cmd args
      = (DispatchResult.errorReply (errUnknownCommand cmd args), s) := by
    unfold dispatch
    simp [h]
  refine ⟨hd, by rw [hd], ?_⟩
  unfold errUnknownCommand
  have hargs : (if args.length > 20 then args.take 20 else args)
      = args.take 20 := by
    split
    · rfl
    · rw [List.take_of_length_le]
      omega
  rw [hargs, foldl_append_eq_join]

/-- Claim C5, witness: dispatching `nosuch` with 22 arguments on a fresh
server produces the unknown-command error listing only 20 arguments and
leaves the commands counter unchanged. -/
theorem C5_witness :
    dispatch initSrv "nosuch" (List.replicate 22 "x")
      = (DispatchResult.errorReply
          (errUnknownCommand "nosuch" (List.replicate 22 "x")), initSrv) ∧
    (dispatch initSrv "nosuch" (List.replicate 22 "x")).2.infoCmds
      = initSrv.infoCmds ∧
    errUnknownCommand "nosuch" (List.replicate 22 "x")
      = "ERR unknown command `" ++ "nosuch" ++ "`, with args beginning with: "
          ++ String.join (((List.replicate 22 "x").take 20).map
              fun a => "`" ++ a ++ "`, ") :=
  C5_unknown_command initSrv "nosuch" (List.replicate 22 "x") rfl

/-- Claim C6, counterexample: the SET handler with one argument replies
`Usage error`, not the claimed `ERR wrong number of arguments` message, and
the GET handler with zero arguments performs no arity check at all (it
indexes `r.Args[0]` out of range instead of replying). -/
theorem C6_counterexample :
    setCmd emptyStr ["k"] = HResult.replied (Reply.err "Usage error") emptyStr ∧
    Reply.err "Usage error"
      ≠ Reply.err "ERR wrong number of arguments for 'set' command" ∧
    getCmd emptyStr [] = none :=
  ⟨rfl, by decide, rfl⟩

/-- Claim C6, amended: the SET handler with fewer than two arguments replies
the error `Usage error` and leaves the state unchanged; the GET handler does
not validate its argument count and faults (Go panic, modelled as `none`) on
zero arguments. -/
theorem C6_arity_amended (m : StrState) (args : List String) :
    (args.length < 2 →
      setCmd m args = HResult.replied (Reply.err "Usage error") m) ∧
    getCmd m [] = none := by
  refine ⟨fun h => ?_, rfl⟩
  unfold setCmd
  rw [if_pos h]

/-- Claim C6, witness: `SET x` on the empty keyspace is a usage error and
`GET` with no arguments faults. -/
theorem C6_witness :
    setCmd emptyStr ["x"] = HResult.replied (Reply.err "Usage error") emptyStr ∧
    getCmd emptyStr [] = none :=
  ⟨(C6_arity_amended emptyStr ["x"]).1 (by decide),
   (C6_arity_amended emptyStr ["x"]).2⟩

/-- Claim C7: after any sequence of server operations, `TotalConnections`
equals the number of `ServeConn` invocations performed so far, and it is
monotonically non-decreasing under further operations. -/
theorem C7_total_connections (ops more : List SrvOp) :
    TotalConnections (runOps initSrv ops) = countServeConn ops ∧
    TotalConnections (runOps initSrv ops)
      ≤ TotalConnections (runOps initSrv (ops ++ more)) := by
  have h1 := runOps_infoConns ops initSrv
  have h2 := runOps_infoConns (ops ++ more) initSrv
  have h3 : countServeConn (ops ++ more)
      = countServeConn ops + countServeConn more := by
    simp [countServeConn, List.countP_append]
  simp only [TotalConnections, initSrv] at *
  omega

/-- Claim C8, counterexample: for a 61-character value the claimed rendering
(a 60-character prefix followed by the ellipsis suffix) differs from what
`Dump`'s value formatter produces, which reserves room for the suffix inside
the 60 characters. -/
theorem C8_counterexample :
    dumpValue (String.mk (List.replicate 61 'a'))
      ≠ goQuote ((String.mk (List.replicate 61 'a')).take 60) ++ "...(61)" := by
  decide

/-- Claim C8, amended: values of at most 60 characters are printed whole; a
longer value is printed as a prefix truncated to `60 - len("...(N)")`
characters followed by the suffix `...(N)` where `N` is the original length,
so prefix and suffix together are exactly 60 characters. -/
theorem C8_dump_truncation (s : String) :
    (s.length ≤ 60 → dumpValue s = goQuote s) ∧
    (∀ sl, sl = "...(" ++ toString s.length ++ ")" → s.length > 60 →
      sl.length ≤ 60 →
      dumpValue s = goQuote (s.take (60 - sl.length)) ++ sl ∧
      (s.take (60 - sl.length)).length + sl.length = 60) := by
  constructor
  · intro h
    unfold dumpValue
    rw [if_neg (by omega)]
  · intro sl hsl h hle
    subst hsl
    unfold dumpValue
    rw [if_pos (by omega)]
    refine ⟨rfl, ?_⟩
    rw [strLength_take]
    omega

/-- Claim C8, witness: the 61-character value of all `a` is rendered as its
53-character prefix plus `...(61)`, 60 characters in all. -/
theorem C8_witness :
    dumpValue (String.mk (List.replicate 61 'a'))
      = goQuote ((String.mk (List.replicate 61 'a')).take
          (60 - ("...(" ++ toString (String.mk (List.replicate 61 'a')).length
            ++ ")").length))
        ++ ("...(" ++ toString (String.mk (List.replicate 61 'a')).length ++ ")") ∧
    ((String.mk (List.replicate 61 'a')).take
        (60 - ("...(" ++ toString (String.mk (List.replicate 61 'a')).length
          ++ ")").length)).length
      + ("...(" ++ toString (String.mk (List.replicate 61 'a')).length ++ ")").length
      = 60 :=
  (C8_dump_truncation (String.mk (List.replicate 61 'a'))).2
    ("...(" ++ toString (String.mk (List.replicate 61 'a')).length ++ ")")
    rfl (by decide) (by decide)

/-- Claim C9: in every reachable state, each database stored under id `i` has
its `id` field equal to `i`; the invariant is preserved by lazy creation
`db(i)`, by `DB(i)` and by `swapDB(i, j)` (including `i = j`), and `db(i)` is
idempotent: a second call returns the state and database of the first. -/
theorem C9_db_id_invariant (m : Miniredis) (i j : Int) (h : WellFormed m) :
    WellFormed (m.db i).1 ∧ (m.db i).2.id = i ∧
    (m.db i).1.db i = m.db i ∧
    WellFormed (m.DB i).1 ∧
    WellFormed (m.swapDB i j).1 :=
  ⟨(wellFormed_db m i h).1, (wellFormed_db m i h).2, db_idem m i,
   (wellFormed_db m i h).1, wellFormed_swapDB m i j h⟩

/-- Claim C9, witness: from a fresh server, creating database 0 and swapping
databases 0 and 1 keeps the id invariant, and `db 0` is idempotent. -/
theorem C9_witness :
    WellFormed (newMiniRedis.db 0).1 ∧ (newMiniRedis.db 0).2.id = 0 ∧
    (newMiniRedis.db 0).1.db 0 = newMiniRedis.db 0 ∧
    WellFormed (newMiniRedis.DB 0).1 ∧
    WellFormed (newMiniRedis.swapDB 0 1).1 :=
  C9_db_id_invariant newMiniRedis 0 1 (fun _ _ hd => nomatch hd)

/-- Claim C10: for every input list and every sequence of values produced by
the random source, `shuffle` returns a permutation of its input (in
particular of the same length), since it only performs pairwise swaps. -/
theorem C10_shuffle_perm (g : Nat → Nat → Nat) (l : List String) :
    List.Perm (shuffle g l) l ∧ (shuffle g l).length = l.length := by
  have h := shuffleIter_perm g l.length 0 l
  exact ⟨h, h.length_eq⟩
